import Mathlib

/-!
Verification of the episode-spec parser and per-episode asset resolution of
`mux-system.py`.

The script's pure logic is embedded shallowly:

* Python strings are `List Char` (the CLI spec string enters as a `String`
  and is immediately viewed through `String.data`);
* `str.split(sep)` for a one-character separator is `splitOnChar`;
* `str.strip()` is `stripChars` (ASCII whitespace, the subset relevant to
  the inputs the script handles);
* `str.isdigit()` is `pyIsDigit`; `int(...)` on a digit string is `listToNat`;
* `sorted(set(xs))` is `sortedDedup` (`Finset.sort`);
* the `muxtools.GlobSearch` collaborator is modelled by a directory-listing
  seam: each search root is a `List (List Char)` of file names in the
  collaborator's (deterministic) enumeration order, and the glob pattern
  `*X*.ext` matches a name iff the name ends in `.ext` and contains `X`
  before that suffix;
* `Path.exists` and the external `mux()` call are likewise seams carried in
  an `FSEnv` record;
* Python exceptions of the parser (`ValueError`) are `Except String`.
-/

/-- ASCII whitespace as stripped by Python's `str.strip()`. -/
def isSpaceChar (c : Char) : Bool :=
  c = ' ' || c = '\t' || c = '\n' || c = '\r' || c = '\x0b' || c = '\x0c'

/-- Model of Python `str.strip()`: drop whitespace from both ends. -/
def stripChars (l : List Char) : List Char :=
  ((l.dropWhile isSpaceChar).reverse.dropWhile isSpaceChar).reverse

/-- Model of Python `str.split(sep)` for a single-character separator:
`"".split(",") = [""]`, separators are not kept, empty pieces are kept. -/
def splitOnChar (sep : Char) : List Char → List (List Char)
  | [] => [[]]
  | c :: rest =>
    if c = sep then
      [] :: splitOnChar sep rest
    else
      match splitOnChar sep rest with
      | t :: ts => (c :: t) :: ts
      | [] => [[c]]

/-- Model of Python `str.isdigit()` restricted to ASCII: nonempty and all
decimal digits (`"".isdigit()` is `False`). -/
def pyIsDigit (l : List Char) : Bool :=
  !l.isEmpty && l.all Char.isDigit

/-- Model of Python `int(...)` applied to a digit string. -/
def listToNat (l : List Char) : Nat :=
  l.foldl (fun n c => 10 * n + (c.toNat - 48)) 0

/-- Model of Python `sorted(set(xs))`: the distinct elements in ascending
order (the set becomes `dedup`, `sorted` becomes a sort of that list). -/
def sortedDedup (l : List Nat) : List Nat :=
  l.dedup.insertionSort (· ≤ ·)

/-- One loop iteration of `parse_episode_list`: handle a single
comma-separated item (range, bare number, or error), mirroring
`mux-system.py` lines 302-321. -/
def parseItem (item0 : List Char) : Except String (List Nat) :=
  let item := stripChars item0
  if '-' ∈ item then
    match splitOnChar '-' item with
    | [a, b] =>
      if pyIsDigit (stripChars a) && pyIsDigit (stripChars b) then
        let s := listToNat (stripChars a)
        let e := listToNat (stripChars b)
        if s > e then
          Except.error ("Invalid episode range (start > end): " ++ String.mk item)
        else
          Except.ok (List.range' s (e + 1 - s))
      else
        Except.error ("Invalid episode range: " ++ String.mk item)
    | _ => Except.error ("Invalid episode range: " ++ String.mk item)
  else if pyIsDigit item then
    Except.ok [listToNat item]
  else
    Except.error ("Invalid episode number: " ++ String.mk item)

/-- The accumulation loop of `parse_episode_list`: process the items
left-to-right, collecting `episodes`; the first `ValueError` aborts. -/
def parseTokens : List (List Char) → Except String (List Nat)
  | [] => Except.ok []
  | it :: rest =>
    match parseItem it with
    | Except.error e => Except.error e
    | Except.ok xs =>
      match parseTokens rest with
      | Except.error e => Except.error e
      | Except.ok ys => Except.ok (xs ++ ys)

/-- Embedding of `parse_episode_list` (`mux-system.py` lines 284-323):
`"all"` short-circuits to `[]`, otherwise split on commas, parse each item,
and return `sorted(set(episodes))`. -/
def parse_episode_list (episode_arg : String) : Except String (List Nat) :=
  if episode_arg = "all" then
    Except.ok []
  else
    (parseTokens (splitOnChar ',' episode_arg.data)).map sortedDedup

/-- Boolean test that `needle` occurs at the front of `hay`. -/
def startsWith : List Char → List Char → Bool
  | _, [] => true
  | [], _ :: _ => false
  | a :: as, b :: bs => a = b && startsWith as bs

/-- Boolean test that `needle` occurs somewhere inside `hay` (the semantics
of a `*needle*` glob fragment / Python `in`). -/
def occursIn (needle : List Char) : List Char → Bool
  | [] => needle.isEmpty
  | h :: t => startsWith (h :: t) needle || occursIn needle t

/-- Boolean test that `hay` ends with `needle`. -/
def endsWith (hay needle : List Char) : Bool :=
  startsWith hay.reverse needle.reverse

/-- Semantics of the `muxtools.GlobSearch` pattern `*{mid}*{ext}` used by the
script: the name ends with the literal extension and contains `mid` before
that suffix. -/
def globMidExt (mid ext name : List Char) : Bool :=
  endsWith name ext && occursIn mid (name.take (name.length - ext.length))

/-- Embedding of `f"{episode_number:02d}"`: decimal digits left-padded with
`0` to width 2. -/
def pad2 (n : Nat) : List Char :=
  if n < 10 then '0' :: Nat.toDigits 10 n else Nat.toDigits 10 n

/-- Mirror of the `RunMode` enum of `mux-system.py`. -/
inductive RunMode where
  | NORMAL
  | DRYRUN
deriving DecidableEq

/-- Mirror of the `MuxResult` dataclass of `mux-system.py`. -/
structure MuxResult where
  episode : Nat
  success : Bool
  output_path : Option (List Char)
  error : Option String
deriving DecidableEq

/-- Mirror of the `ShowConfig` dataclass: only `name` feeds the pure logic
under verification (it appears in the dialog-subtitle path); the directory
fields become listings in `FSEnv`, and `titles`/`songs`/`tmdb_id` feed only
the external naming/merge collaborators. -/
structure ShowConfig where
  name : List Char

/-- Seams for the external collaborators of `mux_episode`: the directory
listings consumed by `GlobSearch` over the premux and audio roots (in the
collaborator's deterministic enumeration order), `Path.exists`, and the
outcome of the external `mux()` call (which the script wraps in
`try/except`, so it is a value, not an exception). -/
structure FSEnv where
  premux_listing : List (List Char)
  audio_listing : List (List Char)
  fileExists : List Char → Bool
  muxOutcome : Nat → Except String (List Char)

/-- Embedding of `_find_video_file`: `GlobSearch(f"*{episode_str}*.mkv")`,
then `search.paths[0] if search.paths else None`. -/
def _find_video_file (episode_str : List Char) (premux_listing : List (List Char)) :
    Option (List Char) :=
  (premux_listing.filter (fun name => globMidExt episode_str (".mkv".data) name)).head?

/-- Embedding of `_find_audio_files`: `GlobSearch(f"*{episode_str}*.flac",
allow_multiple=True)`, then `AudioFile(search.paths) if search.paths else
None` — all matches are kept, in enumeration order. -/
def _find_audio_files (episode_str : List Char) (audio_listing : List (List Char)) :
    Option (List (List Char)) :=
  let paths := audio_listing.filter (fun name => globMidExt episode_str (".flac".data) name)
  if paths.isEmpty then none else some paths

/-- Path of the dialog subtitle checked by `_create_subtitle_file`:
`Path(episode_str) / f"{show_name} - {episode_str} - Dialog.ass"`. -/
def dialogPath (show_name episode_str : List Char) : List Char :=
  episode_str ++ ('/' :: (show_name ++ (" - ".data ++ (episode_str ++ " - Dialog.ass".data))))

/-- Embedding of `_create_subtitle_file`: returns `None` iff the dialog file
is missing; the TS/song/warning merges act only on the external `SubFile`
collaborator and do not change which value is returned, so the returned
subtitle object is collapsed to `Unit`. -/
def _create_subtitle_file (env : FSEnv) (episode_str show_name : List Char)
    (_episode_number : Nat) : Option Unit :=
  if env.fileExists (dialogPath show_name episode_str) then some () else none

/-- Embedding of `mux_episode`: dry-run validates only the subtitle; the
normal path resolves video, audio and subtitle in that order, each missing
class producing a failed `MuxResult` (never an exception), and finally runs
the external `mux()` whose caught outcome decides success. -/
def mux_episode (env : FSEnv) (config : ShowConfig) (mode : RunMode)
    (episode_number : Nat) : MuxResult :=
  let episode_str := pad2 episode_number
  if mode = RunMode.DRYRUN then
    match _create_subtitle_file env episode_str config.name episode_number with
    | none => ⟨episode_number, false, none, some "Subtitle files missing"⟩
    | some _ => ⟨episode_number, true, none, none⟩
  else
    match _find_video_file episode_str env.premux_listing with
    | none => ⟨episode_number, false, none, some "Video file not found"⟩
    | some _ =>
      match _find_audio_files episode_str env.audio_listing with
      | none => ⟨episode_number, false, none, some "Audio files missing"⟩
      | some _ =>
        match _create_subtitle_file env episode_str config.name episode_number with
        | none => ⟨episode_number, false, none, some "Subtitle files missing"⟩
        | some _ =>
          match env.muxOutcome episode_number with
          | Except.ok out => ⟨episode_number, true, some out, none⟩
          | Except.error e => ⟨episode_number, false, none, some e⟩

/-- The per-episode loop of `main`:
`results = [mux_episode(ep, ...) for ep in episode_numbers]`. -/
def runEpisodes (env : FSEnv) (config : ShowConfig) (mode : RunMode)
    (eps : List Nat) : List MuxResult :=
  eps.map (mux_episode env config mode)

/-- Exit-code logic of `main` (`mux-system.py` lines 378-414): invalid spec
→ 2; `all` replaces the empty parse by the discovered episodes (the
external recursive `*.ass` scan, passed in as `discovered`); an empty
selection → 1; otherwise run every episode and return `0 if successful > 0
else 1`. -/
def main_run (env : FSEnv) (config : ShowConfig) (mode : RunMode)
    (episode_arg : String) (discovered : List Nat) : Nat :=
  match parse_episode_list episode_arg with
  | Except.error _ => 2
  | Except.ok eps0 =>
    let eps := if eps0.isEmpty && episode_arg = "all" then discovered else eps0
    if eps.isEmpty then 1
    else
      let successful := ((runEpisodes env config mode eps).filter (fun r => r.success)).length
      if 0 < successful then 0 else 1

/-- Modelled from the spec: the discriminated episode identifier of the
script variants not included here — a numeric episode, an OVA index, or a
no-credits (NC) tagged special identifier carried verbatim. -/
inductive EpisodeId where
  | num (n : Nat)
  | ova (n : Nat)
  | nc (tag : List Char)
deriving DecidableEq

/-- Discriminator for NC-tagged identifiers. -/
def isNC : EpisodeId → Bool
  | EpisodeId.nc _ => true
  | _ => false

/-- Modelled from the spec: the timing offset attached at resolution —
audio/subtitle of an NC variant begin 1000 time-units earlier than the
reference timeline; standard numeric and OVA episodes carry zero offset. -/
def resolutionDelay : EpisodeId → Int
  | EpisodeId.nc _ => -1000
  | EpisodeId.num _ => 0
  | EpisodeId.ova _ => 0

/-- Modelled from the spec: the filename pattern searched for an
identifier — the padded number, the OVA marker with the padded index, or
the NC tag verbatim. -/
def episodeIdMid : EpisodeId → List Char
  | EpisodeId.num n => pad2 n
  | EpisodeId.ova n => "OVA".data ++ pad2 n
  | EpisodeId.nc tag => tag

/-- Modelled from the spec: audio resolution for an identifier — all
matching files under the audio root in enumeration order (absent when there
are none), paired with the identifier's timing offset. -/
def resolveAudioAssets (e : EpisodeId) (audio_listing : List (List Char)) :
    Option (List (List Char) × Int) :=
  let paths := audio_listing.filter (fun name => globMidExt (episodeIdMid e) (".flac".data) name)
  if paths.isEmpty then none else some (paths, resolutionDelay e)

/-- Modelled from the spec: subtitle resolution — NC identifiers resolve to
the fixed well-known songs path keyed by the tag; other identifiers try the
exact padded name first and then fall back to the contains-pattern search,
first match wins; the identifier's timing offset is attached. -/
def resolveSubtitleAsset (e : EpisodeId) (sub_listing : List (List Char)) :
    Option (List Char × Int) :=
  match e with
  | EpisodeId.nc tag => some ("songs/".data ++ tag ++ ".ass".data, resolutionDelay e)
  | _ =>
    match sub_listing.filter (fun n => n = episodeIdMid e ++ ".ass".data) with
    | f :: _ => some (f, resolutionDelay e)
    | [] =>
      (sub_listing.filter
        (fun n => globMidExt (episodeIdMid e) (".ass".data) n)).head?.map
        (fun f => (f, resolutionDelay e))

/-- Concrete two-episode fixture: episodes 1 and 2 have video and audio
files, only episode 1 has its dialog subtitle, and the external `mux()`
succeeds. Episode 2 therefore fails with a missing subtitle. -/
def envTwoEps : FSEnv where
  premux_listing := ["A 01.mkv".data, "A 02.mkv".data]
  audio_listing := ["A 01.flac".data, "A 02.flac".data]
  fileExists := fun p => p = dialogPath ("S".data) (pad2 1)
  muxOutcome := fun _ => Except.ok ("out.mkv".data)

/-- Show configuration used with `envTwoEps`. -/
def cfgS : ShowConfig where
  name := "S".data

theorem dropWhile_eq_self_of_not (p : Char → Bool) (l : List Char)
    (h : ∀ c ∈ l, p c = false) : l.dropWhile p = l := by
  cases l with
  | nil => rfl
  | cons a t => simp [List.dropWhile_cons, h a (List.mem_cons_self a t)]

theorem stripChars_eq_self (l : List Char) (h : ∀ c ∈ l, isSpaceChar c = false) :
    stripChars l = l := by
  unfold stripChars
  rw [dropWhile_eq_self_of_not _ _ h,
    dropWhile_eq_self_of_not _ _ (fun c hc => h c (List.mem_reverse.mp hc)),
    List.reverse_reverse]

theorem splitOnChar_eq_single (sep : Char) (l : List Char) (h : sep ∉ l) :
    splitOnChar sep l = [l] := by
  induction l with
  | nil => rfl
  | cons c t ih =>
    have hc : ¬c = sep := fun hcs => h (hcs ▸ List.mem_cons_self c t)
    have ht : sep ∉ t := fun hm => h (List.mem_cons_of_mem c hm)
    simp [splitOnChar, hc, ih ht]

theorem splitOnChar_append_sep (sep : Char) (a b : List Char) (h : sep ∉ a) :
    splitOnChar sep (a ++ sep :: b) = a :: splitOnChar sep b := by
  induction a with
  | nil => simp [splitOnChar]
  | cons c t ih =>
    have hc : ¬c = sep := fun hcs => h (hcs ▸ List.mem_cons_self c t)
    have ht : sep ∉ t := fun hm => h (List.mem_cons_of_mem c hm)
    simp [splitOnChar, hc, ih ht]

theorem space_not_digit (c : Char) (h : isSpaceChar c = true) : c.isDigit = false := by
  simp only [isSpaceChar, Bool.or_eq_true, decide_eq_true_eq] at h
  rcases h with ((((h | h) | h) | h) | h) | h <;> subst h <;> decide

theorem isDigit_not_space (c : Char) (h : c.isDigit = true) : isSpaceChar c = false := by
  cases hs : isSpaceChar c
  · rfl
  · rw [space_not_digit c hs] at h
    exact absurd h (by decide)

theorem digit_ne_char (c d : Char) (h : c.isDigit = true) (hd : d.isDigit = false) :
    c ≠ d := by
  rintro rfl
  rw [h] at hd
  exact absurd hd (by decide)

theorem pyIsDigit_forall (l : List Char) (h : pyIsDigit l = true) :
    ∀ c ∈ l, c.isDigit = true := by
  unfold pyIsDigit at h
  simp only [Bool.and_eq_true, List.all_eq_true] at h
  exact fun c hc => h.2 c hc

theorem parseTokens_error_of_mem (items : List (List Char)) (it : List Char)
    (hmem : it ∈ items) (msg : String) (herr : parseItem it = Except.error msg) :
    ∃ m, parseTokens items = Except.error m := by
  induction items with
  | nil => cases hmem
  | cons a rest ih =>
    rcases List.mem_cons.mp hmem with rfl | hmem'
    · exact ⟨msg, by simp [parseTokens, herr]⟩
    · cases ha : parseItem a with
      | error m => exact ⟨m, by simp [parseTokens, ha]⟩
      | ok xs =>
        obtain ⟨m, hm⟩ := ih hmem'
        exact ⟨m, by simp [parseTokens, ha, hm]⟩

theorem parse_error_of_tokens_error (s : String) (hna : ¬s = "all") (m : String)
    (h : parseTokens (splitOnChar ',' s.data) = Except.error m) :
    parse_episode_list s = Except.error m := by
  unfold parse_episode_list
  rw [if_neg hna, h]
  rfl

theorem parse_ok_elim (s : String) (hna : ¬s = "all") (l : List Nat)
    (h : parse_episode_list s = Except.ok l) :
    ∃ raw, parseTokens (splitOnChar ',' s.data) = Except.ok raw ∧ l = sortedDedup raw := by
  unfold parse_episode_list at h
  rw [if_neg hna] at h
  cases hp : parseTokens (splitOnChar ',' s.data) with
  | error m => rw [hp] at h; cases h
  | ok raw =>
    rw [hp] at h
    refine ⟨raw, rfl, ?_⟩
    cases h
    rfl

theorem sortedDedup_sorted_lt (l : List Nat) : (sortedDedup l).Sorted (· < ·) := by
  have hs : (sortedDedup l).Sorted (· ≤ ·) := List.sorted_insertionSort _ _
  have hn : (sortedDedup l).Nodup :=
    (List.perm_insertionSort _ _).nodup_iff.mpr (List.nodup_dedup l)
  exact hs.lt_of_le hn

theorem sortedDedup_nodup (l : List Nat) : (sortedDedup l).Nodup :=
  (List.perm_insertionSort _ _).nodup_iff.mpr (List.nodup_dedup l)

theorem sortedDedup_mem (l : List Nat) (x : Nat) : x ∈ sortedDedup l ↔ x ∈ l := by
  unfold sortedDedup
  rw [(List.perm_insertionSort _ _).mem_iff, List.mem_dedup]

/-- C1 (counterexample): the claim says `parse("3,1,1,2-3")` yields
`[3,1,2]` in first-occurrence order; the code returns `sorted(set(...))`,
namely `[1,2,3]`. -/
theorem C1_counterexample :
    parse_episode_list "3,1,1,2-3" = Except.ok [1, 2, 3] ∧
    ([1, 2, 3] : List Nat) ≠ [3, 1, 2] :=
  ⟨rfl, by decide⟩

/-- C1 (amended): for every valid spec string that is not `"all"`, the
parser returns the episode numbers of all tokens' expansions with
duplicates removed and sorted in ascending order (not first-occurrence
order): the result is strictly sorted and contains exactly the elements of
the flattened expansions, so `parse("3,1,1,2-3") = [1,2,3]`. -/
theorem C1_amended_sorted_dedup_of_flatten (s : String) (raw l : List Nat)
    (hna : ¬s = "all")
    (hraw : parseTokens (splitOnChar ',' s.data) = Except.ok raw)
    (hl : parse_episode_list s = Except.ok l) :
    l.Sorted (· < ·) ∧ ∀ x, x ∈ l ↔ x ∈ raw := by
  obtain ⟨raw2, hraw2, hld⟩ := parse_ok_elim s hna l hl
  rw [hraw] at hraw2
  cases hraw2
  subst hld
  exact ⟨sortedDedup_sorted_lt raw, fun x => sortedDedup_mem raw x⟩

/-- C1 (witness): the amended statement applied to the spec `"3,1,1,2-3"`,
whose flattened token expansions are `[3,1,1,2,3]` and whose parse result
is `[1,2,3]`. -/
theorem C1_amended_witness :
    ([1, 2, 3] : List Nat).Sorted (· < ·) ∧
    ∀ x, x ∈ ([1, 2, 3] : List Nat) ↔ x ∈ [3, 1, 1, 2, 3] :=
  C1_amended_sorted_dedup_of_flatten "3,1,1,2-3" [3, 1, 1, 2, 3] [1, 2, 3]
    (by decide) rfl rfl

/-- C3 (counterexample): the claim says the empty spec (or a spec of only
commas and whitespace) yields an empty selection and no parse error; the
code raises `ValueError` on both. -/
theorem C3_counterexample :
    parse_episode_list "" = Except.error "Invalid episode number: " ∧
    parse_episode_list " , " = Except.error "Invalid episode number: " :=
  ⟨rfl, rfl⟩

/-- C3 (amended): a spec string (other than `"all"`) containing an item
that is empty after stripping — in particular the empty spec and specs of
only commas and whitespace — fails with a `ValueError` (`InvalidSpec`),
not an empty selection. -/
theorem C3_amended_empty_item_is_error (s : String) (hna : ¬s = "all")
    (t : List Char) (hmem : t ∈ splitOnChar ',' s.data) (ht : stripChars t = []) :
    ∃ m, parse_episode_list s = Except.error m := by
  have herr : parseItem t = Except.error ("Invalid episode number: " ++ String.mk []) := by
    unfold parseItem
    rw [ht]
    rfl
  obtain ⟨m, hm⟩ := parseTokens_error_of_mem (splitOnChar ',' s.data) t hmem _ herr
  exact ⟨m, parse_error_of_tokens_error s hna m hm⟩

/-- C3 (witness): the amended statement applied to the empty spec, whose
single comma-item is the empty string. -/
theorem C3_amended_witness : ∃ m, parse_episode_list "" = Except.error m :=
  C3_amended_empty_item_is_error "" (by decide) [] (by decide) rfl

/-- C4 (counterexample): the claim says a non-numeric, non-range token such
as `OVA1` or `NCOP` is accepted verbatim as a special identifier; the code
rejects it with `ValueError`. -/
theorem C4_counterexample :
    parse_episode_list "OVA1" = Except.error "Invalid episode number: OVA1" ∧
    parse_episode_list "NCOP" = Except.error "Invalid episode number: NCOP" :=
  ⟨rfl, rfl⟩

/-- C4 (amended): every token that (after stripping) is non-empty, contains
no `-`, and is not all digits — i.e. any would-be special token — makes the
parser fail with `ValueError` instead of producing a special identifier. -/
theorem C4_amended_special_token_rejected (s : String) (hna : ¬s = "all")
    (t : List Char) (hmem : t ∈ splitOnChar ',' s.data)
    (_hne : stripChars t ≠ [])
    (hd : '-' ∉ stripChars t)
    (hdig : (stripChars t).all Char.isDigit = false) :
    ∃ m, parse_episode_list s = Except.error m := by
  have hpy : pyIsDigit (stripChars t) = false := by
    unfold pyIsDigit
    rw [hdig]
    exact Bool.and_false _
  have herr : parseItem t =
      Except.error ("Invalid episode number: " ++ String.mk (stripChars t)) := by
    unfold parseItem
    rw [if_neg hd, if_neg (by simp [hpy])]
  obtain ⟨m, hm⟩ := parseTokens_error_of_mem (splitOnChar ',' s.data) t hmem _ herr
  exact ⟨m, parse_error_of_tokens_error s hna m hm⟩

/-- C4 (witness): the amended statement applied to the spec `"NCOP"`. -/
theorem C4_amended_witness : ∃ m, parse_episode_list "NCOP" = Except.error m :=
  C4_amended_special_token_rejected "NCOP" (by decide) ("NCOP".data)
    (by decide) (by decide) (by decide) rfl

/-- C10: for every spec string other than `"all"` that the parser accepts,
the returned list is sorted in strictly ascending order and contains no
duplicates, regardless of the order or multiplicity of the input tokens. -/
theorem C10_parse_sorted_and_nodup (s : String) (l : List Nat)
    (hna : ¬s = "all") (h : parse_episode_list s = Except.ok l) :
    l.Sorted (· < ·) ∧ l.Nodup := by
  obtain ⟨raw, _, hld⟩ := parse_ok_elim s hna l h
  subst hld
  exact ⟨sortedDedup_sorted_lt raw, sortedDedup_nodup raw⟩

/-- C10 (witness): the statement applied to the spec `"3,1,1,2-3"`, which
parses to `[1,2,3]`. -/
theorem C10_witness : ([1, 2, 3] : List Nat).Sorted (· < ·) ∧ ([1, 2, 3] : List Nat).Nodup :=
  C10_parse_sorted_and_nodup "3,1,1,2-3" [1, 2, 3] (by decide) rfl

theorem exists_success_iff (f : Nat → MuxResult) (eps : List Nat) :
    (0 < ((eps.map f).filter (fun r => r.success)).length) ↔
      ∃ e ∈ eps, (f e).success = true := by
  rw [← List.countP_eq_length_filter, List.countP_pos_iff]
  constructor
  · rintro ⟨r, hr, hs⟩
    obtain ⟨e, he, rfl⟩ := List.mem_map.mp hr
    exact ⟨e, he, hs⟩
  · rintro ⟨e, he, hs⟩
    exact ⟨f e, List.mem_map_of_mem f he, hs⟩

theorem main_run_ok_nonempty (env : FSEnv) (config : ShowConfig) (mode : RunMode)
    (s : String) (d : List Nat) (eps : List Nat)
    (hok : parse_episode_list s = Except.ok eps) (hne : eps ≠ []) :
    main_run env config mode s d =
      if 0 < ((eps.map (mux_episode env config mode)).filter (fun r => r.success)).length
      then 0 else 1 := by
  have hie : eps.isEmpty = false := by
    cases eps with
    | nil => exact absurd rfl hne
    | cons a t => rfl
  unfold main_run
  rw [hok]
  simp [hie, runEpisodes]

/-- C2 (counterexample): the claim says partial failure gives a non-zero
exit status; with video/audio for episodes 1 and 2 but a dialog subtitle
only for episode 1, the run `"1-2"` has one success and one failure, yet
exits 0 (the code returns `0 if successful > 0 else 1`). -/
theorem C2_counterexample :
    main_run envTwoEps cfgS RunMode.NORMAL "1-2" [] = 0 ∧
    (mux_episode envTwoEps cfgS RunMode.NORMAL 1).success = true ∧
    (mux_episode envTwoEps cfgS RunMode.NORMAL 2).success = false :=
  ⟨rfl, rfl, rfl⟩

/-- C2 (amended): an invalid spec exits with the distinct code 2; for a
non-empty accepted selection the exit status is 0 iff at least one (not
every) requested episode succeeded, and is 1 otherwise — so a partial
failure in which some episode succeeds still exits 0. -/
theorem C2_amended_exit_codes (env : FSEnv) (config : ShowConfig) (mode : RunMode)
    (s : String) (d : List Nat) :
    (∀ m, parse_episode_list s = Except.error m → main_run env config mode s d = 2) ∧
    (∀ eps, parse_episode_list s = Except.ok eps → eps ≠ [] →
      ((main_run env config mode s d = 0 ↔
          ∃ e ∈ eps, (mux_episode env config mode e).success = true) ∧
        (main_run env config mode s d = 0 ∨ main_run env config mode s d = 1))) := by
  constructor
  · intro m hm
    unfold main_run
    rw [hm]
  · intro eps hok hne
    rw [main_run_ok_nonempty env config mode s d eps hok hne]
    by_cases hP :
        0 < ((eps.map (mux_episode env config mode)).filter (fun r => r.success)).length
    · rw [if_pos hP]
      exact ⟨iff_of_true rfl ((exists_success_iff _ eps).mp hP), Or.inl rfl⟩
    · rw [if_neg hP]
      exact ⟨iff_of_false (by decide) (fun he => hP ((exists_success_iff _ eps).mpr he)),
        Or.inr rfl⟩

/-- C2 (witness): the amended statement applied to the fixture run: the
malformed spec `"x"` exits 2, and the partial-failure run `"1-2"` exits 0
because episode 1 succeeds. -/
theorem C2_amended_witness :
    main_run envTwoEps cfgS RunMode.NORMAL "x" [] = 2 ∧
    main_run envTwoEps cfgS RunMode.NORMAL "1-2" [] = 0 :=
  ⟨(C2_amended_exit_codes envTwoEps cfgS RunMode.NORMAL "x" []).1
      "Invalid episode number: x" rfl,
    ((C2_amended_exit_codes envTwoEps cfgS RunMode.NORMAL "1-2" []).2 [1, 2] rfl
      (by decide)).1.mpr ⟨1, by decide, rfl⟩⟩

/-- C5: for every range token `A-B` built from two non-negative integer
(digit) strings, the parser fails with the `InvalidSpec` `ValueError` when
`A > B` (both at token level and for the whole spec), and otherwise expands
the token to exactly the inclusive integer sequence `A..B` in ascending
order. -/
theorem C5_range_token (a b : List Char) (ha : pyIsDigit a = true) (hb : pyIsDigit b = true) :
    (listToNat a > listToNat b →
      parseItem (a ++ '-' :: b) =
        Except.error ("Invalid episode range (start > end): " ++ String.mk (a ++ '-' :: b)) ∧
      ∃ m, parse_episode_list (String.mk (a ++ '-' :: b)) = Except.error m) ∧
    (listToNat a ≤ listToNat b →
      ∃ l, parseItem (a ++ '-' :: b) = Except.ok l ∧
        l.Sorted (· < ·) ∧
        ∀ x, x ∈ l ↔ listToNat a ≤ x ∧ x ≤ listToNat b) := by
  have hda := pyIsDigit_forall a ha
  have hdb := pyIsDigit_forall b hb
  have hnha : '-' ∉ a := fun hm => absurd (hda '-' hm) (by decide)
  have hnhb : '-' ∉ b := fun hm => absurd (hdb '-' hm) (by decide)
  have hsp : ∀ c ∈ a ++ '-' :: b, isSpaceChar c = false := by
    intro c hc
    rcases List.mem_append.mp hc with h | h
    · exact isDigit_not_space c (hda c h)
    · rcases List.mem_cons.mp h with rfl | h
      · decide
      · exact isDigit_not_space c (hdb c h)
  have hstrip : stripChars (a ++ '-' :: b) = a ++ '-' :: b := stripChars_eq_self _ hsp
  have hstripa : stripChars a = a :=
    stripChars_eq_self _ (fun c hc => isDigit_not_space c (hda c hc))
  have hstripb : stripChars b = b :=
    stripChars_eq_self _ (fun c hc => isDigit_not_space c (hdb c hc))
  have hmem : '-' ∈ a ++ '-' :: b :=
    List.mem_append.mpr (Or.inr (List.mem_cons_self _ _))
  have hsplit : splitOnChar '-' (a ++ '-' :: b) = [a, b] := by
    rw [splitOnChar_append_sep '-' a b hnha, splitOnChar_eq_single '-' b hnhb]
  have heval : parseItem (a ++ '-' :: b) =
      if listToNat a > listToNat b then
        Except.error ("Invalid episode range (start > end): " ++ String.mk (a ++ '-' :: b))
      else
        Except.ok (List.range' (listToNat a) (listToNat b + 1 - listToNat a)) := by
    simp only [parseItem, hstrip, hsplit, hstripa, hstripb, ha, hb, if_pos hmem,
      Bool.and_self, if_pos]
  constructor
  · intro hgt
    have herr := heval.trans (if_pos hgt)
    refine ⟨herr, ?_⟩
    have hnall : ¬String.mk (a ++ '-' :: b) = "all" := by
      intro h
      have hdata : (a ++ '-' :: b) = "all".data := congrArg String.data h
      rw [hdata] at hmem
      exact absurd hmem (by decide)
    have hnca : ',' ∉ a := fun hm => absurd (hda ',' hm) (by decide)
    have hncb : ',' ∉ b := fun hm => absurd (hdb ',' hm) (by decide)
    have hnc : ',' ∉ a ++ '-' :: b := by
      intro hm
      rcases List.mem_append.mp hm with h | h
      · exact hnca h
      · rcases List.mem_cons.mp h with h | h
        · exact absurd h (by decide)
        · exact hncb h
    have hsplitc : splitOnChar ',' (String.mk (a ++ '-' :: b)).data = [a ++ '-' :: b] :=
      splitOnChar_eq_single ',' _ hnc
    obtain ⟨m, hm⟩ := parseTokens_error_of_mem [a ++ '-' :: b] (a ++ '-' :: b)
      (List.mem_cons_self _ _) _ herr
    exact ⟨m, parse_error_of_tokens_error _ hnall m (by rw [hsplitc]; exact hm)⟩
  · intro hle
    refine ⟨List.range' (listToNat a) (listToNat b + 1 - listToNat a),
      heval.trans (if_neg (not_lt.mpr hle)), List.pairwise_lt_range' _ _, ?_⟩
    intro x
    rw [List.mem_range'_1]
    constructor
    · rintro ⟨h1, h2⟩
      exact ⟨h1, by omega⟩
    · rintro ⟨h1, h2⟩
      exact ⟨h1, by omega⟩

/-- C5 (witness): the statement applied to the failing range `2-1` and the
expanding range `1-3`. -/
theorem C5_witness :
    (parseItem (['2'] ++ '-' :: ['1']) =
        Except.error ("Invalid episode range (start > end): " ++ String.mk (['2'] ++ '-' :: ['1'])) ∧
      ∃ m, parse_episode_list (String.mk (['2'] ++ '-' :: ['1'])) = Except.error m) ∧
    ∃ l, parseItem (['1'] ++ '-' :: ['3']) = Except.ok l ∧
      l.Sorted (· < ·) ∧ ∀ x, x ∈ l ↔ listToNat ['1'] ≤ x ∧ x ≤ listToNat ['3'] :=
  ⟨(C5_range_token ['2'] ['1'] rfl rfl).1 (by decide),
   (C5_range_token ['1'] ['3'] rfl rfl).2 (by decide)⟩

/-- C6: resolution attaches the fixed negative offset -1000 to the audio
and subtitle assets of every NC-tagged identifier, and zero offset to every
standard numeric or OVA identifier (spec-modelled: this logic lives in the
script variants not included under the sources). -/
theorem C6_nc_offset (e : EpisodeId) (audio_listing sub_listing : List (List Char)) :
    ((isNC e = true → resolutionDelay e = -1000 ∧ resolutionDelay e < 0) ∧
      (isNC e = false → resolutionDelay e = 0)) ∧
    (∀ ps off, resolveAudioAssets e audio_listing = some (ps, off) →
      off = resolutionDelay e) ∧
    (∀ p off, resolveSubtitleAsset e sub_listing = some (p, off) →
      off = resolutionDelay e) := by
  refine ⟨⟨?_, ?_⟩, ?_, ?_⟩
  · intro h
    cases e with
    | nc tag => exact ⟨rfl, show (-1000 : Int) < 0 by decide⟩
    | num n => simp [isNC] at h
    | ova n => simp [isNC] at h
  · intro h
    cases e with
    | nc tag => simp [isNC] at h
    | num n => rfl
    | ova n => rfl
  · intro ps off h
    simp only [resolveAudioAssets] at h
    split at h
    · exact absurd h (by simp)
    · simp only [Option.some.injEq, Prod.mk.injEq] at h
      exact h.2.symm
  · intro p off h
    cases e with
    | nc tag =>
      simp only [resolveSubtitleAsset, Option.some.injEq, Prod.mk.injEq] at h
      exact h.2.symm
    | num n =>
      simp only [resolveSubtitleAsset] at h
      split at h
      · simp only [Option.some.injEq, Prod.mk.injEq] at h
        exact h.2.symm
      · obtain ⟨f, hf, hfe⟩ := Option.map_eq_some'.mp h
        cases hfe
        rfl
    | ova n =>
      simp only [resolveSubtitleAsset] at h
      split at h
      · simp only [Option.some.injEq, Prod.mk.injEq] at h
        exact h.2.symm
      · obtain ⟨f, hf, hfe⟩ := Option.map_eq_some'.mp h
        cases hfe
        rfl

/-- C6 (witness): the statement applied to the NC identifier `NCOP` (offset
-1000, negative) and to a numeric and an OVA identifier (offset 0). -/
theorem C6_witness :
    (resolutionDelay (EpisodeId.nc ("NCOP".data)) = -1000 ∧
      resolutionDelay (EpisodeId.nc ("NCOP".data)) < 0) ∧
    resolutionDelay (EpisodeId.num 3) = 0 ∧
    resolutionDelay (EpisodeId.ova 1) = 0 ∧
    ∀ ps off, resolveAudioAssets (EpisodeId.nc ("NCOP".data)) ["NCOP.flac".data] =
      some (ps, off) → off = resolutionDelay (EpisodeId.nc ("NCOP".data)) :=
  ⟨(C6_nc_offset (EpisodeId.nc ("NCOP".data)) ["NCOP.flac".data] []).1.1 rfl,
    (C6_nc_offset (EpisodeId.num 3) [] []).1.2 rfl,
    (C6_nc_offset (EpisodeId.ova 1) [] []).1.2 rfl,
    (C6_nc_offset (EpisodeId.nc ("NCOP".data)) ["NCOP.flac".data] []).2.1⟩

/-- C7: audio resolution returns the full set of matching files in
enumeration order — every file of the audio root matching the padded
pattern is in the result, nothing else is, the order is the root's order
(a sublist), and the result is never the empty set; zero candidates make
the audio class absent (`None`). -/
theorem C7_audio_full_candidate_set (n : Nat) (audio_listing : List (List Char)) :
    (∀ l, _find_audio_files (pad2 n) audio_listing = some l →
      l ≠ [] ∧ l.Sublist audio_listing ∧
      ∀ name, name ∈ l ↔
        name ∈ audio_listing ∧ globMidExt (pad2 n) (".flac".data) name = true) ∧
    ((∀ name ∈ audio_listing, globMidExt (pad2 n) (".flac".data) name = false) →
      _find_audio_files (pad2 n) audio_listing = none) := by
  constructor
  · intro l h
    simp only [_find_audio_files] at h
    split at h
    · cases h
    · rename_i hne
      simp only [Option.some.injEq] at h
      subst h
      refine ⟨?_, List.filter_sublist _, ?_⟩
      · intro hnil
        rw [hnil] at hne
        simp at hne
      · intro name
        simp [List.mem_filter]
  · intro hall
    simp only [_find_audio_files]
    have hnil : audio_listing.filter
        (fun name => globMidExt (pad2 n) (".flac".data) name) = [] :=
      List.filter_eq_nil_iff.mpr (fun a ha => by simp [hall a ha])
    rw [hnil]
    rfl

/-- C7 (witness): with two of three files matching episode 05, the resolved
audio set is exactly the two matches, in enumeration order. -/
theorem C7_witness :
    ∀ name, name ∈ ["A 05.flac".data, "B 05.flac".data] ↔
      name ∈ ["A 05.flac".data, "B 05.flac".data, "A 06.flac".data] ∧
        globMidExt (pad2 5) (".flac".data) name = true :=
  ((C7_audio_full_candidate_set 5
      ["A 05.flac".data, "B 05.flac".data, "A 06.flac".data]).1
    ["A 05.flac".data, "B 05.flac".data] rfl).2.2

/-- C8: a missing video, audio or subtitle class never raises — the episode
gets a failed `MuxResult` carrying an error — and the run still produces
one result per requested episode, each sibling's result being its own
independent `mux_episode` value. -/
theorem C8_missing_asset_is_local (env : FSEnv) (config : ShowConfig)
    (eps : List Nat) (e : Nat)
    (hmiss : _find_video_file (pad2 e) env.premux_listing = none ∨
      _find_audio_files (pad2 e) env.audio_listing = none ∨
      _create_subtitle_file env (pad2 e) config.name e = none) :
    ((mux_episode env config RunMode.NORMAL e).success = false ∧
      (mux_episode env config RunMode.NORMAL e).error.isSome = true) ∧
    (runEpisodes env config RunMode.NORMAL eps).length = eps.length ∧
    ∀ e2 ∈ eps, mux_episode env config RunMode.NORMAL e2 ∈
      runEpisodes env config RunMode.NORMAL eps := by
  have hmain : (mux_episode env config RunMode.NORMAL e).success = false ∧
      (mux_episode env config RunMode.NORMAL e).error.isSome = true := by
    cases hv : _find_video_file (pad2 e) env.premux_listing with
    | none => simp [mux_episode, hv]
    | some v =>
      cases ha : _find_audio_files (pad2 e) env.audio_listing with
      | none => simp [mux_episode, hv, ha]
      | some aud =>
        cases hs : _create_subtitle_file env (pad2 e) config.name e with
        | none => simp [mux_episode, hv, ha, hs]
        | some u =>
          rcases hmiss with h | h | h
          · rw [hv] at h; cases h
          · rw [ha] at h; cases h
          · rw [hs] at h; cases h
  refine ⟨hmain, by simp [runEpisodes], fun e2 he2 => ?_⟩
  simp only [runEpisodes]
  exact List.mem_map_of_mem _ he2

/-- C8 (witness): on the two-episode fixture, episode 2's missing subtitle
yields a failed result while both episodes still appear in the run. -/
theorem C8_witness :
    ((mux_episode envTwoEps cfgS RunMode.NORMAL 2).success = false ∧
      (mux_episode envTwoEps cfgS RunMode.NORMAL 2).error.isSome = true) ∧
    (runEpisodes envTwoEps cfgS RunMode.NORMAL [1, 2]).length = ([1, 2] : List Nat).length ∧
    ∀ e2 ∈ [1, 2], mux_episode envTwoEps cfgS RunMode.NORMAL e2 ∈
      runEpisodes envTwoEps cfgS RunMode.NORMAL [1, 2] :=
  C8_missing_asset_is_local envTwoEps cfgS [1, 2] 2 (Or.inr (Or.inr rfl))

/-- C9: in dry-run mode an episode's result depends only on subtitle
existence — two environments agreeing on `fileExists` but with arbitrary
video/audio listings and assembly outcomes give identical results, so the
video and audio roots are never consulted and no assembly is invoked — no
output path is produced, and success is reported iff the dialog subtitle
exists. -/
theorem C9_dryrun_frame (env env2 : FSEnv) (config : ShowConfig) (e : Nat)
    (hfe : env.fileExists = env2.fileExists) :
    mux_episode env config RunMode.DRYRUN e = mux_episode env2 config RunMode.DRYRUN e ∧
    (mux_episode env config RunMode.DRYRUN e).output_path = none ∧
    ((mux_episode env config RunMode.DRYRUN e).success = true ↔
      env.fileExists (dialogPath config.name (pad2 e)) = true) := by
  cases hs : env.fileExists (dialogPath config.name (pad2 e)) with
  | false =>
    have h1 : mux_episode env config RunMode.DRYRUN e =
        ⟨e, false, none, some "Subtitle files missing"⟩ := by
      simp [mux_episode, _create_subtitle_file, hs]
    have h2 : mux_episode env2 config RunMode.DRYRUN e =
        ⟨e, false, none, some "Subtitle files missing"⟩ := by
      simp [mux_episode, _create_subtitle_file, ← hfe, hs]
    rw [h1, h2]
    simp [hs]
  | true =>
    have h1 : mux_episode env config RunMode.DRYRUN e = ⟨e, true, none, none⟩ := by
      simp [mux_episode, _create_subtitle_file, hs]
    have h2 : mux_episode env2 config RunMode.DRYRUN e = ⟨e, true, none, none⟩ := by
      simp [mux_episode, _create_subtitle_file, ← hfe, hs]
    rw [h1, h2]
    simp [hs]

/-- C9 (witness): the statement applied to the fixture with a second
environment whose video/audio listings are empty and whose assembler
fails — the dry run of episode 1 is unchanged and reports success. -/
theorem C9_witness :
    mux_episode envTwoEps cfgS RunMode.DRYRUN 1 =
      mux_episode ⟨[], [], envTwoEps.fileExists, fun _ => Except.error "down"⟩
        cfgS RunMode.DRYRUN 1 ∧
    (mux_episode envTwoEps cfgS RunMode.DRYRUN 1).output_path = none ∧
    ((mux_episode envTwoEps cfgS RunMode.DRYRUN 1).success = true ↔
      envTwoEps.fileExists (dialogPath cfgS.name (pad2 1)) = true) :=
  C9_dryrun_frame envTwoEps
    ⟨[], [], envTwoEps.fileExists, fun _ => Except.error "down"⟩ cfgS 1 rfl
